import Mathlib

/-!
Verification of the nexus3-go script bridge and paginated traversal.

The Go source is shallowly embedded: Go pointer fields (`*string`) become
`Option String`, Go `error` values become `String` messages, and the remote
server / HTTP transport boundary is a record of oracle functions giving the
outcome of each remote operation (the transport is an external collaborator).
Functions that issue remote calls also return the list of calls they issued,
in order, so that call-ordering and call-counting properties can be stated.
A Go nil-pointer dereference is modelled as an explicit `panicked` outcome.
-/

namespace Nexus3

/-- A Nexus groovy script record (struct `Script` in the source): pointer
fields `Name`, `Content`, `Type` become options. The unexported `client`
field is the transport handle and is modelled by passing the `Registry`
explicitly. -/
structure Script where
  Name : Option String
  Content : Option String
  Kind : Option String
deriving Repr, DecidableEq

/-- Struct `ExecuteScriptResponse` in the source: both fields are pointers,
hence options. -/
structure ExecuteScriptResponse where
  Name : Option String
  Result : Option String
deriving Repr, DecidableEq

/-- One remote call issued through the transport, recorded for tracing. -/
inductive Call
  | get (name : String)
  | create (script : Script)
  | update (script : Script)
  | execute (name : String)
  | delete (name : String)
deriving Repr, DecidableEq

/-- `true` exactly on `Call.create` events. -/
def Call.isCreate : Call → Bool
  | Call.create _ => true
  | _ => false

/-- `true` exactly on `Call.update` events. -/
def Call.isUpdate : Call → Bool
  | Call.update _ => true
  | _ => false

/-- `true` exactly on `Call.execute` events. -/
def Call.isExecute : Call → Bool
  | Call.execute _ => true
  | _ => false

/-- `true` exactly on `Call.delete` events. -/
def Call.isDelete : Call → Bool
  | Call.delete _ => true
  | _ => false

/-- The remote server / transport boundary: the outcome each remote operation
would produce. `getS` answers a GET of a script (HTTP transport plus JSON
unmarshalling collapsed into one outcome, as the bridge never inspects the
pieces separately); `createS`/`updateS`/`deleteS` answer the corresponding
requests; `executeS` answers a script run. Errors are Go error strings. -/
structure Registry where
  getS : String → Except String Script
  createS : Script → Except String Unit
  updateS : Script → Except String Unit
  executeS : String → Except String ExecuteScriptResponse
  deleteS : String → Except String Unit

/-- Outcome of a Go function that can return a value, return an error, or
panic on a nil-pointer dereference. -/
inductive Outcome (A : Type)
  | ok (a : A)
  | err (e : String)
  | panicked
deriving Repr, DecidableEq

/-- Lift an `Except`-valued remote outcome to an `Outcome`. -/
def execOutcome (x : Except String ExecuteScriptResponse) :
    Outcome ExecuteScriptResponse :=
  match x with
  | Except.ok v => Outcome.ok v
  | Except.error e => Outcome.err e

/-- The message `GetScript` maps an HTTP 404 to (source line 169): the shape
of a NotFound error for a script name. -/
def notFoundMsg (name : String) : String :=
  "Script " ++ name ++ " does not exist"

/-- The fail-fast validation message of `CreateScript`/`UpdateScript`. -/
def invalidArgMsg : String :=
  "Script instance must contain a name and content"

/-- Embeds `CreateScript` (source lines 255-281): validates that `Name` and
`Content` pointers are non-nil BEFORE any request is built, then issues the
create request; on success the returned bound script is built locally from
the input fields, not from the server response. -/
def CreateScript (r : Registry) (script : Script) :
    Except String Script × List Call :=
  if script.Name = none ∨ script.Content = none then
    (Except.error invalidArgMsg, [])
  else
    match r.createS script with
    | Except.error e => (Except.error e, [Call.create script])
    | Except.ok _ =>
      (Except.ok ⟨script.Name, script.Content, script.Kind⟩, [Call.create script])

/-- Embeds `UpdateScript` (source lines 285-312): same nil validation, then a
PUT; on success the bound script is again built locally from the input. -/
def UpdateScript (r : Registry) (script : Script) :
    Except String Script × List Call :=
  if script.Name = none ∨ script.Content = none then
    (Except.error invalidArgMsg, [])
  else
    match r.updateS script with
    | Except.error e => (Except.error e, [Call.update script])
    | Except.ok _ =>
      (Except.ok ⟨script.Name, script.Content, script.Kind⟩, [Call.update script])

/-- Embeds `GetScript` (source lines 162-180). -/
def GetScript (r : Registry) (name : String) :
    Except String Script × List Call :=
  (r.getS name, [Call.get name])

/-- Embeds `DeleteScript` (source lines 220-230). -/
def DeleteScript (r : Registry) (name : String) :
    Except String Unit × List Call :=
  (r.deleteS name, [Call.delete name])

/-- Embeds `Script.Execute` (source lines 122-125): dereferences the
script's `Name` pointer (panicking when nil, as Go would) and runs it. -/
def scriptRun (r : Registry) (script : Script) :
    Outcome ExecuteScriptResponse × List Call :=
  match script.Name with
  | none => (Outcome.panicked, [])
  | some nm => (execOutcome (r.executeS nm), [Call.execute nm])

/-- The tail of `ensureAndExecute` after a script handle has been obtained
(source lines 147-158): dereference the handle's `Content` and the desired
`Content`, update on mismatch, then execute the resulting handle. -/
def ensureTail (r : Registry) (name content : String) (typ : Option String)
    (script : Script) (t : List Call) :
    Outcome ExecuteScriptResponse × List Call :=
  match script.Content with
  | none => (Outcome.panicked, t)
  | some rc =>
    if rc ≠ content then
      match UpdateScript r ⟨some name, some content, typ⟩ with
      | (Except.error e, t2) => (Outcome.err e, t ++ t2)
      | (Except.ok script2, t2) =>
        let ex := scriptRun r script2
        (ex.1, t ++ t2 ++ ex.2)
    else
      let ex := scriptRun r script
      (ex.1, t ++ ex.2)

/-- Embeds `Script.ensureAndExecute` (source lines 135-159). The desired
name and content are taken as plain strings because the Go code dereferences
both pointers unconditionally (`*s.Name` line 136, `*s.Content` line 147).
Note the source reacts to ANY error from `GetScript` — not only NotFound —
by attempting a create (line 137 tests `err != nil` without inspecting the
error). -/
def ensureAndExecute (r : Registry) (name content : String)
    (typ : Option String) : Outcome ExecuteScriptResponse × List Call :=
  match r.getS name with
  | Except.error _ =>
    match CreateScript r ⟨some name, some content, typ⟩ with
    | (Except.error e, t) => (Outcome.err e, Call.get name :: t)
    | (Except.ok script, t) =>
      ensureTail r name content typ script (Call.get name :: t)
  | Except.ok script =>
    ensureTail r name content typ script [Call.get name]

/-- Go return shape of `ExecuteScript`: a result pointer that may be nil, an
error that may be nil, or a runtime panic from a nil-pointer dereference. -/
inductive GoRet (A : Type)
  | ret (res : Option A) (err : Option String)
  | panicked
deriving Repr, DecidableEq

/-- Outcome of `json.Unmarshal` of a byte body into a
`*ExecuteScriptResponse` target. `ok none` is a body that decodes to JSON
`null` (the target pointer stays nil); `ok (some v)` is a decoded object
with optional fields; `fail leftover msg` is a parse failure reporting
`msg`, where `leftover` is whatever the unmarshal left in the target before
erroring — nil for a top-level syntax error, but possibly an allocated,
partially populated object (e.g. an UnmarshalTypeError reported after some
fields were already assigned). -/
inductive Unmarshalled
  | ok (res : Option ExecuteScriptResponse)
  | fail (leftover : Option ExecuteScriptResponse) (msg : String)
deriving Repr, DecidableEq

/-- Embeds the response-handling of `ExecuteScript` (source lines 193-217).
`u` models `json.Unmarshal` of a byte body into a `*ExecuteScriptResponse`
target (see `Unmarshalled`). `doResult` is the outcome of
`n.Do(req, nil, true)`: on a non-2xx status, `Do` with `resToErr = true`
returns an error whose text is the raw response body, so `Except.error b`
carries the error response body `b`. On the failure path the source
unmarshals that body into the named return `res` and, when that parse
fails, returns `res` as the unmarshal left it alongside the parse error;
when the parse succeeds it builds `errors.New(*res.Result)`, dereferencing
`res` and `res.Result`. -/
def ExecuteScript (u : String → Unmarshalled)
    (doResult : Except String String) : GoRet ExecuteScriptResponse :=
  match doResult with
  | Except.error ebody =>
    match u ebody with
    | Unmarshalled.fail leftover perr => GoRet.ret leftover (some perr)
    | Unmarshalled.ok none => GoRet.panicked
    | Unmarshalled.ok (some res) =>
      match res.Result with
      | none => GoRet.panicked
      | some msg => GoRet.ret (some res) (some msg)
  | Except.ok body =>
    match u body with
    | Unmarshalled.fail leftover perr => GoRet.ret leftover (some perr)
    | Unmarshalled.ok r => GoRet.ret r none

/-- Embeds `EphemeralScript.Execute` (source lines 96-108): create a script
under a fresh uuid name with the caller's content, then execute it, with a
deferred delete that runs after the execute whenever the create succeeded
and whose own result is discarded. -/
def EphemeralExecute (r : Registry) (uuidName : String)
    (content : Option String) : Outcome ExecuteScriptResponse × List Call :=
  match CreateScript r ⟨some uuidName, content, some "groovy"⟩ with
  | (Except.error e, t) => (Outcome.err e, t)
  | (Except.ok script, t) =>
    let ex := scriptRun r script
    let d := DeleteScript r (script.Name.getD "")
    (ex.1, t ++ ex.2 ++ d.2)

/-- One page of a paginated listing (`ListAssetsResponse` /
`ListComponentsResponse` in the source): the items and an optional
continuation token. -/
structure Page (α : Type) where
  Items : List α
  ContinuationToken : Option String
deriving Repr, DecidableEq

/-- Result of a paginated walk. `truncated` is a modelling artifact: it is
returned when the source would issue a fetch beyond the finite list of
server responses supplied to the model (the Go recursion itself is unbounded
and trusts the server's cursors). -/
inductive PageOutcome
  | ok
  | err (e : String)
  | truncated
deriving Repr, DecidableEq

/-- Embeds the shared recursion of `ListAssetsPages` (assets.go lines
174-195) and `ListComponentsPages` (components.go lines 273-294). The server
is modelled as the finite list of successive fetch outcomes: element `i` is
what the `i`-th list request returns (the source threads the returned
continuation token into the next request's input). `cb` is the page handler
returning Go's `(cont bool, err error)` pair. Returns the final outcome, the
handler invocations in order (page, `last` flag), and the number of fetches
issued. -/
def pagesTraverse {α : Type} (cb : Page α → Bool → Bool × Option String) :
    List (Except String (Page α)) →
    PageOutcome × List (Page α × Bool) × Nat
  | [] => (PageOutcome.truncated, [], 1)
  | Except.error e :: _ => (PageOutcome.err e, [], 1)
  | Except.ok res :: rest =>
    match res.ContinuationToken with
    | none =>
      match (cb res true).2 with
      | some e => (PageOutcome.err e, [(res, true)], 1)
      | none => (PageOutcome.ok, [(res, true)], 1)
    | some _ =>
      match cb res false with
      | (_, some e) => (PageOutcome.err e, [(res, false)], 1)
      | (false, none) => (PageOutcome.ok, [(res, false)], 1)
      | (true, none) =>
        let w := pagesTraverse cb rest
        (w.1, (res, false) :: w.2.1, w.2.2 + 1)

/-- `Asset` record from assets.go (the unexported `client` handle and the
checksum map are irrelevant to pagination order and omitted as opaque). -/
structure Asset where
  DownloadURL : Option String
  Path : Option String
  ID : Option String
  Repository : Option String
  Format : Option String
deriving Repr, DecidableEq

/-- `Component` record from components.go. -/
structure Component where
  ID : Option String
  Repository : Option String
  Format : Option String
  Group : Option String
  Name : Option String
  Version : Option String
  Assets : List Asset
deriving Repr, DecidableEq

/-- `ListAssetsPages` is the `pagesTraverse` recursion at item type
`Asset`. -/
def ListAssetsPages (cb : Page Asset → Bool → Bool × Option String)
    (server : List (Except String (Page Asset))) :
    PageOutcome × List (Page Asset × Bool) × Nat :=
  pagesTraverse cb server

/-- `ListComponentsPages` is the `pagesTraverse` recursion at item type
`Component`. -/
def ListComponentsPages (cb : Page Component → Bool → Bool × Option String)
    (server : List (Except String (Page Component))) :
    PageOutcome × List (Page Component × Bool) × Nat :=
  pagesTraverse cb server

/-- A server page sequence in which every page except the last carries a
present continuation cursor and exactly the last page's cursor is absent. -/
def lastAbsentChain {α : Type} : List (Page α) → Prop
  | [] => True
  | [p] => p.ContinuationToken = none
  | p :: q :: rest =>
    (p.ContinuationToken).isSome = true ∧ lastAbsentChain (q :: rest)

/-- A two-page asset server trace used to witness the pagination claims. -/
def assetPageOne : Page Asset :=
  ⟨[⟨some "u1", some "a", some "id1", some "repo", some "raw"⟩,
    ⟨some "u2", some "b", some "id2", some "repo", some "raw"⟩],
   some "tok1"⟩

/-- Final page of the witness trace: absent cursor. -/
def assetPageTwo : Page Asset :=
  ⟨[⟨some "u3", some "c", some "id3", some "repo", some "raw"⟩], none⟩

/-- A handler that always continues with no error. -/
def alwaysContinue (_ : Page Asset) (_ : Bool) : Bool × Option String :=
  (true, none)

/-- A handler that stops (no error) on non-last pages and errors on the last
page, used to witness both branches of the early-stop claim. -/
def stopThenFail (_ : Page Asset) (last : Bool) : Bool × Option String :=
  if last then (true, some "handler failed") else (false, none)

/-- A registry whose get fails with a permission-style error that is not the
NotFound message, and whose other operations succeed. -/
def permDeniedRegistry : Registry where
  getS := fun _ => Except.error "permission denied"
  createS := fun _ => Except.ok ()
  updateS := fun _ => Except.ok ()
  executeS := fun nm => Except.ok ⟨some nm, some "1"⟩
  deleteS := fun _ => Except.ok ()

/-- A registry holding a stale copy of script p: get succeeds with an old
body, update and execute succeed. -/
def staleRegistry : Registry where
  getS := fun nm => Except.ok ⟨some nm, some "return 0", some "groovy"⟩
  createS := fun _ => Except.ok ()
  updateS := fun _ => Except.ok ()
  executeS := fun nm => Except.ok ⟨some nm, some "1"⟩
  deleteS := fun _ => Except.ok ()

/-- A registry where create succeeds but the script run raises a remote
exception and the cleanup delete itself fails. -/
def flakyRegistry : Registry where
  getS := fun nm => Except.error (notFoundMsg nm)
  createS := fun _ => Except.ok ()
  updateS := fun _ => Except.ok ()
  executeS := fun _ =>
    Except.error "javax.script.ScriptException: No such property: gah"
  deleteS := fun _ => Except.error "delete failed"

/-- The execute-failure response body named by the spec:
`\x7b"name":"x","result":"boom"\x7d`. -/
def errBodyXBoom : String :=
  "\x7b\"name\":\"x\",\"result\":\"boom\"\x7d"

/-- An error body whose `result` field is a number, not a string:
`json.Unmarshal` allocates the target, assigns `Name`, and only then
reports an UnmarshalTypeError, leaving a partially decoded object behind. -/
def typeErrBody : String :=
  "\x7b\"name\":\"x\",\"result\":123\x7d"

/-- The message `json.Unmarshal` reports for `typeErrBody`. -/
def typeErrMsg : String :=
  "json: cannot unmarshal number into Go struct field " ++
    "ExecuteScriptResponse.result of type string"

/-- A concrete stand-in for `json.Unmarshal` into `*ExecuteScriptResponse`
that decodes exactly the spec's execute-failure body, the empty JSON object
(an allocated response with both fields absent), the body `null` (the
target pointer stays nil), and the number-typed `result` body (a type error
after `Name` was already assigned); everything else is a top-level syntax
failure that leaves the target nil. -/
def decodeXBoom (s : String) : Unmarshalled :=
  if s = errBodyXBoom then Unmarshalled.ok (some ⟨some "x", some "boom"⟩)
  else if s = "\x7b\x7d" then Unmarshalled.ok (some ⟨none, none⟩)
  else if s = "null" then Unmarshalled.ok none
  else if s = typeErrBody then Unmarshalled.fail (some ⟨some "x", none⟩) typeErrMsg
  else Unmarshalled.fail none "invalid character looking for beginning of value"

/-- One unfolding step of the traversal when the head fetch yields a page
with a present cursor and the handler answers continue with no error: the
walk records the call and recurses on the remaining server responses. -/
theorem pagesTraverse_cons_continue {α : Type}
    (cb : Page α → Bool → Bool × Option String) (p : Page α) (t : String)
    (rest : List (Except String (Page α)))
    (ht : p.ContinuationToken = some t) (h : cb p false = (true, none)) :
    pagesTraverse cb (Except.ok p :: rest) =
      ((pagesTraverse cb rest).1,
       (p, false) :: (pagesTraverse cb rest).2.1,
       (pagesTraverse cb rest).2.2 + 1) := by
  simp [pagesTraverse, ht, h]

/-- Generic walk lemma: on a well-formed non-empty chain of pages whose
fetches all succeed, with a handler that always answers `(true, nil)`, the
traversal ends without error, calls the handler once per page in page order
with `last = true` exactly on the final page, and issues one fetch per
page. -/
theorem pagesTraverse_walk {α : Type} (cb : Page α → Bool → Bool × Option String)
    (hcb : ∀ p b, cb p b = (true, none)) :
    ∀ pages : List (Page α), lastAbsentChain pages → pages ≠ [] →
      (pagesTraverse cb (pages.map Except.ok)).1 = PageOutcome.ok ∧
      (pagesTraverse cb (pages.map Except.ok)).2.1.map Prod.fst = pages ∧
      (pagesTraverse cb (pages.map Except.ok)).2.1.map Prod.snd =
        List.replicate (pages.length - 1) false ++ [true] ∧
      (pagesTraverse cb (pages.map Except.ok)).2.2 = pages.length
  | [], _, hne => absurd rfl hne
  | [p], hchain, _ => by
      have h := hcb p true
      simp only [lastAbsentChain] at hchain
      simp [pagesTraverse, hchain, h]
  | p :: q :: rest, hchain, _ => by
      obtain ⟨hp, hrest⟩ := hchain
      obtain ⟨t, ht⟩ := Option.isSome_iff_exists.mp hp
      have h := hcb p false
      have ih := pagesTraverse_walk cb hcb (q :: rest) hrest (by simp)
      rw [List.map_cons,
        pagesTraverse_cons_continue cb p t ((q :: rest).map Except.ok) ht h]
      simp only [List.map_cons] at ih
      refine ⟨ih.1, ?_, ?_, ?_⟩
      · simp [ih.2.1]
      · simp [ih.2.2.1, List.replicate_succ]
      · simp [ih.2.2.2]

/-- C5: for a server-produced sequence of N pages (N ≥ 1) in which exactly
the last page has an absent continuation cursor and every handler call
returns continue = true with no error, `ListAssetsPages` and
`ListComponentsPages` invoke the handler exactly N times, once per page in
page order, with `is_last = true` only on the final call, and the items
delivered across the calls are the concatenation of the pages' items in
order. -/
theorem claim5_pagination_termination :
    (∀ (cb : Page Asset → Bool → Bool × Option String)
       (pages : List (Page Asset)),
       (∀ p b, cb p b = (true, none)) → lastAbsentChain pages → pages ≠ [] →
       (ListAssetsPages cb (pages.map Except.ok)).1 = PageOutcome.ok ∧
       (ListAssetsPages cb (pages.map Except.ok)).2.1.length = pages.length ∧
       (ListAssetsPages cb (pages.map Except.ok)).2.1.map Prod.fst = pages ∧
       (ListAssetsPages cb (pages.map Except.ok)).2.1.map Prod.snd =
         List.replicate (pages.length - 1) false ++ [true] ∧
       ((ListAssetsPages cb (pages.map Except.ok)).2.1.map
           (fun c => c.1.Items)).flatten = (pages.map Page.Items).flatten) ∧
    (∀ (cb : Page Component → Bool → Bool × Option String)
       (pages : List (Page Component)),
       (∀ p b, cb p b = (true, none)) → lastAbsentChain pages → pages ≠ [] →
       (ListComponentsPages cb (pages.map Except.ok)).1 = PageOutcome.ok ∧
       (ListComponentsPages cb (pages.map Except.ok)).2.1.length =
         pages.length ∧
       (ListComponentsPages cb (pages.map Except.ok)).2.1.map Prod.fst =
         pages ∧
       (ListComponentsPages cb (pages.map Except.ok)).2.1.map Prod.snd =
         List.replicate (pages.length - 1) false ++ [true] ∧
       ((ListComponentsPages cb (pages.map Except.ok)).2.1.map
           (fun c => c.1.Items)).flatten = (pages.map Page.Items).flatten) := by
  constructor
  all_goals
    intro cb pages hcb hchain hne
    have w := pagesTraverse_walk cb hcb pages hchain hne
    have hlen : (pagesTraverse cb (pages.map Except.ok)).2.1.length =
        pages.length := by
      have := congrArg List.length w.2.1
      simpa using this
    have hmm : (pagesTraverse cb (pages.map Except.ok)).2.1.map
        (fun c => c.1.Items) =
        ((pagesTraverse cb (pages.map Except.ok)).2.1.map Prod.fst).map
          Page.Items := by
      simp [List.map_map]
    exact ⟨w.1, hlen, w.2.1, w.2.2.1, by
      show ((pagesTraverse cb (pages.map Except.ok)).2.1.map
          (fun c => c.1.Items)).flatten = (pages.map Page.Items).flatten
      rw [hmm, w.2.1]⟩

theorem claim5_pagination_termination_witness :
    ((∀ p b, alwaysContinue p b = (true, none)) ∧
      lastAbsentChain [assetPageOne, assetPageTwo] ∧
      ([assetPageOne, assetPageTwo] : List (Page Asset)) ≠ []) ∧
    ((ListAssetsPages alwaysContinue
        ([assetPageOne, assetPageTwo].map Except.ok)).1 = PageOutcome.ok ∧
      (ListAssetsPages alwaysContinue
        ([assetPageOne, assetPageTwo].map Except.ok)).2.1.length = 2 ∧
      (ListAssetsPages alwaysContinue
        ([assetPageOne, assetPageTwo].map Except.ok)).2.1.map Prod.snd =
        List.replicate 1 false ++ [true]) := by
  have h1 : ∀ p b, alwaysContinue p b = (true, none) := fun _ _ => rfl
  have h2 : lastAbsentChain [assetPageOne, assetPageTwo] := by
    simp [lastAbsentChain, assetPageOne, assetPageTwo]
  have h3 : ([assetPageOne, assetPageTwo] : List (Page Asset)) ≠ [] := by
    simp
  have w := claim5_pagination_termination.1 alwaysContinue
    [assetPageOne, assetPageTwo] h1 h2 h3
  exact ⟨⟨h1, h2, h3⟩, w.1, by simpa using w.2.1, by simpa using w.2.2.2.1⟩

/-- C6: in paginated traversal, a handler answer of continue = false with no
error on a page whose cursor is present stops the walk with no error and no
further fetches; on a page whose cursor is absent the continue flag is
ignored — the walk stops regardless and returns only the handler's error,
if any. -/
theorem claim6_early_stop :
    ∀ (cb : Page Asset → Bool → Bool × Option String) (p : Page Asset)
      (rest : List (Except String (Page Asset))),
      ((p.ContinuationToken).isSome = true → cb p false = (false, none) →
        ListAssetsPages cb (Except.ok p :: rest) =
          (PageOutcome.ok, [(p, false)], 1)) ∧
      (p.ContinuationToken = none →
        ListAssetsPages cb (Except.ok p :: rest) =
          ((match (cb p true).2 with
            | some e => PageOutcome.err e
            | none => PageOutcome.ok), [(p, true)], 1)) := by
  intro cb p rest
  constructor
  · intro h1 h2
    obtain ⟨t, ht⟩ := Option.isSome_iff_exists.mp h1
    simp [ListAssetsPages, pagesTraverse, ht, h2]
  · intro h
    rcases h2 : (cb p true).2 with _ | e
    all_goals simp [ListAssetsPages, pagesTraverse, h, h2]

theorem claim6_early_stop_witness :
    ((assetPageOne.ContinuationToken).isSome = true ∧
      stopThenFail assetPageOne false = (false, none) ∧
      ListAssetsPages stopThenFail [Except.ok assetPageOne, Except.ok assetPageTwo] =
        (PageOutcome.ok, [(assetPageOne, false)], 1)) ∧
    (assetPageTwo.ContinuationToken = none ∧
      ListAssetsPages stopThenFail [Except.ok assetPageTwo] =
        (PageOutcome.err "handler failed", [(assetPageTwo, true)], 1)) := by
  have h1 : (assetPageOne.ContinuationToken).isSome = true := rfl
  have h2 : stopThenFail assetPageOne false = (false, none) := rfl
  have h3 : assetPageTwo.ContinuationToken = none := rfl
  have wa := (claim6_early_stop stopThenFail assetPageOne
    [Except.ok assetPageTwo]).1 h1 h2
  have wb := (claim6_early_stop stopThenFail assetPageTwo []).2 h3
  exact ⟨⟨h1, h2, wa⟩, h3, by simpa [stopThenFail] using wb⟩

/-- C1 counterexample: the original claim says a get failure other than
NotFound is not followed by a create and is surfaced to the caller. With a
concrete registry whose get fails with "permission denied" — not the
NotFound message — the bridge nevertheless issues a create (and then
executes), and the get error never reaches the caller. -/
theorem claim1_counterexample :
    permDeniedRegistry.getS "p" = Except.error "permission denied" ∧
    "permission denied" ≠ notFoundMsg "p" ∧
    (ensureAndExecute permDeniedRegistry "p" "return 1" (some "groovy")).2 =
      [Call.get "p", Call.create ⟨some "p", some "return 1", some "groovy"⟩,
       Call.execute "p"] ∧
    (ensureAndExecute permDeniedRegistry "p" "return 1" (some "groovy")).1 ≠
      Outcome.err "permission denied" := by
  refine ⟨rfl, by decide, rfl, by decide⟩

/-- C1 (amended): in `ensureAndExecute`, create(desired) is attempted
exactly when get(desired.name) fails with ANY error — the code does not
distinguish NotFound from transport or permission failures, and the get
error itself is never surfaced; when create fails, that failure is
propagated and no execute is attempted. -/
theorem claim1_create_on_any_get_failure :
    ∀ (r : Registry) (name content : String) (typ : Option String),
      (∀ s, r.getS name = Except.ok s →
        (ensureAndExecute r name content typ).2.countP Call.isCreate = 0) ∧
      (∀ e, r.getS name = Except.error e →
        (ensureAndExecute r name content typ).2.countP Call.isCreate = 1) ∧
      (∀ e e2, r.getS name = Except.error e →
        r.createS ⟨some name, some content, typ⟩ = Except.error e2 →
        ensureAndExecute r name content typ =
          (Outcome.err e2,
           [Call.get name, Call.create ⟨some name, some content, typ⟩])) := by
  intro r name content typ
  refine ⟨?_, ?_, ?_⟩
  · intro s hget
    simp only [ensureAndExecute, hget, ensureTail]
    rcases s.Content with _ | rc
    · simp [Call.isCreate]
    · simp only []
      by_cases hrc : rc ≠ content
      · simp only [if_pos hrc, UpdateScript]
        rcases r.updateS ⟨some name, some content, typ⟩ with e | u
        · simp [Call.isCreate]
        · simp [scriptRun, Call.isCreate]
      · simp only [if_neg hrc, scriptRun]
        rcases s.Name with _ | nm
        · simp [Call.isCreate]
        · simp [Call.isCreate]
  · intro e hget
    simp only [ensureAndExecute, hget, CreateScript]
    rcases hc : r.createS ⟨some name, some content, typ⟩ with e2 | u
    · simp [Call.isCreate]
    · simp [ensureTail, scriptRun, Call.isCreate]
  · intro e e2 hget hcreate
    simp [ensureAndExecute, hget, CreateScript, hcreate]

/-- A concrete application of the amended C1, covering both the create-
counting equivalence and the propagation of a create failure. -/
theorem claim1_create_on_any_get_failure_witness :
    (staleRegistry.getS "p" = Except.ok ⟨some "p", some "return 0", some "groovy"⟩ ∧
      (ensureAndExecute staleRegistry "p" "return 1" (some "groovy")).2.countP
        Call.isCreate = 0) ∧
    (permDeniedRegistry.getS "p" = Except.error "permission denied" ∧
      (ensureAndExecute permDeniedRegistry "p" "return 1"
        (some "groovy")).2.countP Call.isCreate = 1) := by
  have w1 := (claim1_create_on_any_get_failure staleRegistry "p" "return 1"
    (some "groovy")).1 ⟨some "p", some "return 0", some "groovy"⟩ rfl
  have w2 := (claim1_create_on_any_get_failure permDeniedRegistry "p"
    "return 1" (some "groovy")).2.1 "permission denied" rfl
  exact ⟨⟨rfl, w1⟩, rfl, w2⟩

/-- C2: when the remote copy exists, `ensureAndExecute` compares the remote
body to the desired body by exact text equality. On equality it issues zero
update calls and goes straight to execute; on any difference it issues
exactly one update carrying the desired name, type and body before
executing; an update failure is propagated and nothing is executed. -/
theorem claim2_drift_update :
    ∀ (r : Registry) (name content : String) (typ : Option String)
      (rs : Script),
      r.getS name = Except.ok rs →
      ((∀ rn, rs.Name = some rn → rs.Content = some content →
         ensureAndExecute r name content typ =
           (execOutcome (r.executeS rn),
            [Call.get name, Call.execute rn])) ∧
       (∀ rc, rs.Content = some rc → rc ≠ content →
         (r.updateS ⟨some name, some content, typ⟩ = Except.ok () →
           ensureAndExecute r name content typ =
             (execOutcome (r.executeS name),
              [Call.get name, Call.update ⟨some name, some content, typ⟩,
               Call.execute name])) ∧
         (∀ e, r.updateS ⟨some name, some content, typ⟩ = Except.error e →
           ensureAndExecute r name content typ =
             (Outcome.err e,
              [Call.get name,
               Call.update ⟨some name, some content, typ⟩])))) := by
  intro r name content typ rs hget
  constructor
  · intro rn hn hc
    simp [ensureAndExecute, hget, ensureTail, hc, hn, scriptRun]
  · intro rc hc hne
    constructor
    · intro hupd
      simp [ensureAndExecute, hget, ensureTail, hc, hne, UpdateScript, hupd,
        scriptRun]
    · intro e hupd
      simp [ensureAndExecute, hget, ensureTail, hc, hne, UpdateScript, hupd]

/-- A concrete application of C2: against a registry holding a stale body,
the bridge issues exactly one update and then executes. -/
theorem claim2_drift_update_witness :
    (staleRegistry.getS "p" =
      Except.ok ⟨some "p", some "return 0", some "groovy"⟩ ∧
     (⟨some "p", some "return 0", some "groovy"⟩ : Script).Content =
       some "return 0" ∧
     "return 0" ≠ "return 1" ∧
     staleRegistry.updateS ⟨some "p", some "return 1", some "groovy"⟩ =
       Except.ok ()) ∧
    ensureAndExecute staleRegistry "p" "return 1" (some "groovy") =
      (execOutcome (staleRegistry.executeS "p"),
       [Call.get "p", Call.update ⟨some "p", some "return 1", some "groovy"⟩,
        Call.execute "p"]) := by
  have w := ((claim2_drift_update staleRegistry "p" "return 1" (some "groovy")
    ⟨some "p", some "return 0", some "groovy"⟩ rfl).2 "return 0" rfl
    (by decide)).1 rfl
  exact ⟨⟨rfl, rfl, by decide, rfl⟩, w⟩

/-- C4: in `EphemeralScript.Execute`, when the create step succeeds the
generated name is deleted exactly once, as the last call, on every exit path
of the invoke step, and the result is the execute outcome alone — the
delete's own outcome never influences it (a delete failure is swallowed);
when the create step fails (either fail-fast validation on an absent body or
a server-side create failure) no delete is attempted and the create failure
is returned. -/
theorem claim4_ephemeral_cleanup :
    ∀ (r : Registry) (uuidName : String) (content : Option String),
      (content = none →
        EphemeralExecute r uuidName content = (Outcome.err invalidArgMsg, [])) ∧
      (∀ c, content = some c →
        (∀ e, r.createS ⟨some uuidName, some c, some "groovy"⟩ =
            Except.error e →
          EphemeralExecute r uuidName content =
            (Outcome.err e,
             [Call.create ⟨some uuidName, some c, some "groovy"⟩])) ∧
        (r.createS ⟨some uuidName, some c, some "groovy"⟩ = Except.ok () →
          (EphemeralExecute r uuidName content).2.countP Call.isDelete = 1 ∧
          (EphemeralExecute r uuidName content).2.getLast? =
            some (Call.delete uuidName) ∧
          (EphemeralExecute r uuidName content).1 =
            execOutcome (r.executeS uuidName))) := by
  intro r uuidName content
  refine ⟨?_, ?_⟩
  · intro h
    simp [EphemeralExecute, CreateScript, h]
  · intro c hc
    refine ⟨?_, ?_⟩
    · intro e hcreate
      simp [EphemeralExecute, CreateScript, hc, hcreate]
    · intro hcreate
      simp [EphemeralExecute, CreateScript, hc, hcreate, scriptRun,
        DeleteScript, Call.isDelete]

/-- A concrete application of C4: the create succeeds, the remote run raises
an exception, the cleanup delete itself fails — yet exactly one delete is
issued as the last call and the returned failure is the execution error, not
the delete error. -/
theorem claim4_ephemeral_cleanup_witness :
    (flakyRegistry.createS ⟨some "u-77", some "gah", some "groovy"⟩ =
       Except.ok () ∧
     flakyRegistry.deleteS "u-77" = Except.error "delete failed" ∧
     flakyRegistry.executeS "u-77" =
       Except.error "javax.script.ScriptException: No such property: gah") ∧
    ((EphemeralExecute flakyRegistry "u-77" (some "gah")).2.countP
       Call.isDelete = 1 ∧
     (EphemeralExecute flakyRegistry "u-77" (some "gah")).2.getLast? =
       some (Call.delete "u-77") ∧
     (EphemeralExecute flakyRegistry "u-77" (some "gah")).1 =
       Outcome.err "javax.script.ScriptException: No such property: gah") := by
  have w := ((claim4_ephemeral_cleanup flakyRegistry "u-77" (some "gah")).2
    "gah" rfl).2 rfl
  exact ⟨⟨rfl, rfl, rfl⟩, w.1, w.2.1, w.2.2⟩

/-- C9: one bridge invocation issues at most three calls, always starting
with get, followed by at most one of create or update (never both — the
script a successful create hands back carries the desired body, so the
drift test cannot fire), optionally ending in an execute which is always the
final call; one ephemeral invocation issues create, execute, delete strictly
in that order, the delete (when reached) being the last call attempted. -/
theorem claim9_call_order :
    ∀ (r : Registry) (name content : String) (typ : Option String)
      (uuidName : String) (body : Option String),
      ((ensureAndExecute r name content typ).2.length ≤ 3 ∧
       (ensureAndExecute r name content typ).2.countP Call.isCreate +
         (ensureAndExecute r name content typ).2.countP Call.isUpdate ≤ 1 ∧
       ((ensureAndExecute r name content typ).2 = [Call.get name] ∨
        (∃ n, (ensureAndExecute r name content typ).2 =
          [Call.get name, Call.execute n]) ∨
        (∃ s, (ensureAndExecute r name content typ).2 =
          [Call.get name, Call.create s]) ∨
        (∃ s n, (ensureAndExecute r name content typ).2 =
          [Call.get name, Call.create s, Call.execute n]) ∨
        (∃ s, (ensureAndExecute r name content typ).2 =
          [Call.get name, Call.update s]) ∨
        (∃ s n, (ensureAndExecute r name content typ).2 =
          [Call.get name, Call.update s, Call.execute n]))) ∧
      ((EphemeralExecute r uuidName body).2 = [] ∨
       (∃ s, (EphemeralExecute r uuidName body).2 = [Call.create s]) ∨
       (∃ s, (EphemeralExecute r uuidName body).2 =
         [Call.create s, Call.execute uuidName, Call.delete uuidName])) := by
  intro r name content typ uuidName body
  have hshape :
      (ensureAndExecute r name content typ).2 = [Call.get name] ∨
      (∃ n, (ensureAndExecute r name content typ).2 =
        [Call.get name, Call.execute n]) ∨
      (∃ s, (ensureAndExecute r name content typ).2 =
        [Call.get name, Call.create s]) ∨
      (∃ s n, (ensureAndExecute r name content typ).2 =
        [Call.get name, Call.create s, Call.execute n]) ∨
      (∃ s, (ensureAndExecute r name content typ).2 =
        [Call.get name, Call.update s]) ∨
      (∃ s n, (ensureAndExecute r name content typ).2 =
        [Call.get name, Call.update s, Call.execute n]) := by
    rcases hget : r.getS name with e | s
    · simp only [ensureAndExecute, hget, CreateScript]
      rcases hc : r.createS ⟨some name, some content, typ⟩ with e2 | u
      · simp
      · simp [ensureTail, scriptRun]
    · simp only [ensureAndExecute, hget, ensureTail]
      rcases s.Content with _ | rc
      · simp
      · simp only []
        by_cases hrc : rc ≠ content
        · simp only [if_pos hrc, UpdateScript]
          rcases r.updateS ⟨some name, some content, typ⟩ with e | u
          · simp
          · simp [scriptRun]
        · simp only [if_neg hrc, scriptRun]
          rcases s.Name with _ | nm
          · simp
          · simp
  refine ⟨⟨?_, ?_, hshape⟩, ?_⟩
  · rcases hshape with h | ⟨n, h⟩ | ⟨s, h⟩ | ⟨s, n, h⟩ | ⟨s, h⟩ | ⟨s, n, h⟩ <;>
      simp [h]
  · rcases hshape with h | ⟨n, h⟩ | ⟨s, h⟩ | ⟨s, n, h⟩ | ⟨s, h⟩ | ⟨s, n, h⟩ <;>
      simp [h, Call.isCreate, Call.isUpdate]
  · rcases body with _ | c
    · simp [EphemeralExecute, CreateScript]
    · simp only [EphemeralExecute, CreateScript]
      rcases hc : r.createS ⟨some uuidName, some c, some "groovy"⟩ with e | u
      · simp
      · simp [scriptRun, DeleteScript]

/-- C3: when the run fails and the error response body unmarshals to the
object with name "x" and result "boom", `ExecuteScript` returns an error
whose message is exactly "boom" (the result field's text); when the error
body cannot be parsed into that shape, the raw parse error is returned
instead. -/
theorem claim3_error_body_roundtrip :
    ∀ (u : String → Unmarshalled),
      (u errBodyXBoom = Unmarshalled.ok (some ⟨some "x", some "boom"⟩) →
        ExecuteScript u (Except.error errBodyXBoom) =
          GoRet.ret (some ⟨some "x", some "boom"⟩) (some "boom")) ∧
      (∀ b lv perr, u b = Unmarshalled.fail lv perr →
        ExecuteScript u (Except.error b) = GoRet.ret lv (some perr)) := by
  intro u
  constructor
  · intro h
    simp [ExecuteScript, h]
  · intro b lv perr h
    simp [ExecuteScript, h]

/-- A concrete application of C3 with an executable decoder: the spec's
failure body yields the message "boom", and an HTML error page yields the
decoder's parse error. -/
theorem claim3_error_body_roundtrip_witness :
    (decodeXBoom errBodyXBoom = Unmarshalled.ok (some ⟨some "x", some "boom"⟩) ∧
      ExecuteScript decodeXBoom (Except.error errBodyXBoom) =
        GoRet.ret (some ⟨some "x", some "boom"⟩) (some "boom")) ∧
    (decodeXBoom "<html>500</html>" =
        Unmarshalled.fail none "invalid character looking for beginning of value" ∧
      ExecuteScript decodeXBoom (Except.error "<html>500</html>") =
        GoRet.ret none
          (some "invalid character looking for beginning of value")) := by
  have h1 : decodeXBoom errBodyXBoom =
      Unmarshalled.ok (some ⟨some "x", some "boom"⟩) := by rfl
  have h2 : decodeXBoom "<html>500</html>" =
      Unmarshalled.fail none "invalid character looking for beginning of value" := by
    rfl
  exact ⟨⟨h1, (claim3_error_body_roundtrip decodeXBoom).1 h1⟩,
    h2, (claim3_error_body_roundtrip decodeXBoom).2 "<html>500</html>" none
      "invalid character looking for beginning of value" h2⟩

/-- C10: the failure branch of `ExecuteScript` is not total. When the error
body is valid JSON that yields no result field — `null` leaves the response
pointer nil, and the empty object leaves its `Result` field nil — building
the error message dereferences a nil pointer: the model reaches the
`panicked` outcome instead of returning any error. -/
theorem claim10_nil_deref_panic :
    ∀ (u : String → Unmarshalled) (b : String),
      (u b = Unmarshalled.ok none →
        ExecuteScript u (Except.error b) = GoRet.panicked) ∧
      (∀ nm, u b = Unmarshalled.ok (some ⟨nm, none⟩) →
        ExecuteScript u (Except.error b) = GoRet.panicked) := by
  intro u b
  constructor
  · intro h
    simp [ExecuteScript, h]
  · intro nm h
    simp [ExecuteScript, h]

/-- A concrete application of C10 at the bodies the claim names: the empty
JSON object and `null` both drive the failure branch into the nil
dereference. -/
theorem claim10_nil_deref_panic_witness :
    (decodeXBoom "\x7b\x7d" =
        Unmarshalled.ok (some ⟨none, none⟩) ∧
      ExecuteScript decodeXBoom (Except.error "\x7b\x7d") =
        GoRet.panicked) ∧
    (decodeXBoom "null" = Unmarshalled.ok none ∧
      ExecuteScript decodeXBoom (Except.error "null") = GoRet.panicked) := by
  have h1 : decodeXBoom "\x7b\x7d" = Unmarshalled.ok (some ⟨none, none⟩) := by
    rfl
  have h2 : decodeXBoom "null" = Unmarshalled.ok none := by rfl
  exact ⟨⟨h1, (claim10_nil_deref_panic decodeXBoom "\x7b\x7d").2 none h1⟩,
    h2, (claim10_nil_deref_panic decodeXBoom "null").1 h2⟩

/-- C8 counterexample: the original claim says a non-nil error is never
accompanied by a non-nil result. In `ExecuteScript`'s execution-error branch
the parsed error body IS returned alongside the error: on the spec's own
failure body the call returns both a populated response and the error
"boom". -/
theorem claim8_counterexample :
    ExecuteScript decodeXBoom (Except.error errBodyXBoom) =
      GoRet.ret (some ⟨some "x", some "boom"⟩) (some "boom") ∧
    (some (⟨some "x", some "boom"⟩ : ExecuteScriptResponse)).isSome = true := by
  exact ⟨by decide, rfl⟩

/-- C8 (amended): a failed `ExecuteScript` call always carries a non-nil
error when it returns at all, but the result value alongside that error is
not always nil: the execution-error path returns the response decoded from
the error body, and the parse-failure path returns whatever the unmarshal
left in the result target — possibly a partially decoded non-nil object. -/
theorem claim8_failed_call_result_amended :
    ∀ (u : String → Unmarshalled) (b : String),
      (∀ r e, ExecuteScript u (Except.error b) = GoRet.ret r e →
        e.isSome = true) ∧
      (∀ res msg, u b = Unmarshalled.ok (some res) → res.Result = some msg →
        ExecuteScript u (Except.error b) = GoRet.ret (some res) (some msg)) ∧
      (∀ lv perr, u b = Unmarshalled.fail lv perr →
        ExecuteScript u (Except.error b) = GoRet.ret lv (some perr)) := by
  intro u b
  refine ⟨?_, ?_, ?_⟩
  · intro r e hret
    cases hu : u b with
    | ok res =>
      cases res with
      | none => simp [ExecuteScript, hu] at hret
      | some res =>
        cases hres : res.Result with
        | none => simp [ExecuteScript, hu, hres] at hret
        | some msg =>
          simp only [ExecuteScript, hu, hres, GoRet.ret.injEq] at hret
          obtain ⟨-, he⟩ := hret
          exact he ▸ rfl
    | fail lv perr =>
      simp only [ExecuteScript, hu, GoRet.ret.injEq] at hret
      obtain ⟨-, he⟩ := hret
      exact he ▸ rfl
  · intro res msg h hres
    simp [ExecuteScript, h, hres]
  · intro lv perr h
    simp [ExecuteScript, h]

/-- A concrete application of the amended C8 on all three branches; the
number-typed `result` body shows the parse-failure path returning a
partially decoded non-nil result alongside the parse error. -/
theorem claim8_failed_call_result_amended_witness :
    (decodeXBoom typeErrBody = Unmarshalled.fail (some ⟨some "x", none⟩) typeErrMsg ∧
      ExecuteScript decodeXBoom (Except.error typeErrBody) =
        GoRet.ret (some ⟨some "x", none⟩) (some typeErrMsg)) ∧
    (decodeXBoom errBodyXBoom = Unmarshalled.ok (some ⟨some "x", some "boom"⟩) ∧
      ExecuteScript decodeXBoom (Except.error errBodyXBoom) =
        GoRet.ret (some ⟨some "x", some "boom"⟩) (some "boom")) ∧
    ((some "boom" : Option String).isSome = true ∧
      (some typeErrMsg : Option String).isSome = true) := by
  have h1 : decodeXBoom typeErrBody =
      Unmarshalled.fail (some ⟨some "x", none⟩) typeErrMsg := by rfl
  have h2 : decodeXBoom errBodyXBoom =
      Unmarshalled.ok (some ⟨some "x", some "boom"⟩) := by rfl
  have wfail := (claim8_failed_call_result_amended decodeXBoom
    typeErrBody).2.2 (some ⟨some "x", none⟩) typeErrMsg h1
  have wexec := (claim8_failed_call_result_amended decodeXBoom
    errBodyXBoom).2.1 ⟨some "x", some "boom"⟩ "boom" h2 rfl
  have werr1 := (claim8_failed_call_result_amended decodeXBoom
    errBodyXBoom).1 (some ⟨some "x", some "boom"⟩) (some "boom") wexec
  have werr2 := (claim8_failed_call_result_amended decodeXBoom
    typeErrBody).1 (some ⟨some "x", none⟩) (some typeErrMsg) wfail
  exact ⟨⟨h1, wfail⟩, ⟨h2, wexec⟩, werr1, werr2⟩

/-- C7 counterexample: the original claim says an empty (not just absent)
name or body fails fast and never reaches the server. With both fields
present but empty, `CreateScript` performs no validation failure and issues
the create request. -/
theorem claim7_counterexample :
    (CreateScript permDeniedRegistry ⟨some "", some "", some "groovy"⟩).2 =
      [Call.create ⟨some "", some "", some "groovy"⟩] ∧
    (CreateScript permDeniedRegistry ⟨some "", some "", some "groovy"⟩).1 =
      Except.ok ⟨some "", some "", some "groovy"⟩ := by
  exact ⟨rfl, rfl⟩

/-- C7 (amended): `CreateScript` fails fast with the InvalidArgument message
and issues no network request exactly when the name or content pointer is
absent (nil); when both are present — even as empty strings — the create
request is issued. -/
theorem claim7_validation_absent_only :
    ∀ (r : Registry) (s : Script),
      ((s.Name = none ∨ s.Content = none) →
        CreateScript r s = (Except.error invalidArgMsg, [])) ∧
      (∀ nm c, s.Name = some nm → s.Content = some c →
        (CreateScript r s).2 = [Call.create s]) := by
  intro r s
  constructor
  · intro h
    simp only [CreateScript, if_pos h]
  · intro nm c hn hc
    simp only [CreateScript, hn, hc]
    rcases r.createS s with e | u <;> simp

/-- A concrete application of the amended C7 on both branches. -/
theorem claim7_validation_absent_only_witness :
    ((⟨none, some "return 1", some "groovy"⟩ : Script).Name = none ∧
      CreateScript permDeniedRegistry ⟨none, some "return 1", some "groovy"⟩ =
        (Except.error invalidArgMsg, [])) ∧
    ((⟨some "", some "", some "groovy"⟩ : Script).Name = some "" ∧
      (⟨some "", some "", some "groovy"⟩ : Script).Content = some "" ∧
      (CreateScript permDeniedRegistry ⟨some "", some "", some "groovy"⟩).2 =
        [Call.create ⟨some "", some "", some "groovy"⟩]) := by
  exact ⟨⟨rfl, (claim7_validation_absent_only permDeniedRegistry
      ⟨none, some "return 1", some "groovy"⟩).1 (Or.inl rfl)⟩,
    rfl, rfl, (claim7_validation_absent_only permDeniedRegistry
      ⟨some "", some "", some "groovy"⟩).2 "" "" rfl rfl⟩

end Nexus3
